import Mathlib

/-!
Shallow embedding of the subscription-detection core of the wise-wallet
repository.

The primary embedded function is `detectSubscriptions` from
`src/client/src/pages/Subscriptions.tsx` (lines 60-180).  Transactions carry a
merchant label, a signed rational amount, a calendar date and a category.
Dates are modelled at day resolution by a proleptic-Gregorian calendar date
`CalDate`; `rataDie` plays the role of `Date.getTime()` scaled to days, so
`date-fns.differenceInDays` of two day-resolution dates is the difference of
their `rataDie` values.  JavaScript numbers are modelled by `ℚ`, JavaScript's
(stable) `Array.prototype.sort` with a numeric-key comparator by a stable
insertion sort on the same key.

Additionally embedded: the absolute-amount similarity gate of
`src/client/src/components/financial/ActiveSubscriptions.tsx` (lines 54-59),
and a raw (duck-typed) front end `detectSubscriptionsRaw` in which the
merchant field may be absent, reflecting that the source accesses
`transaction.merchant.toLowerCase()` without any validation and hence throws
on a record with a missing merchant label.
-/

/-- A calendar date (proleptic Gregorian, year ≥ 1), day resolution. -/
structure CalDate where
  year : Nat
  month : Nat
  day : Nat
deriving DecidableEq, Repr

/-- Gregorian leap-year test. -/
def isLeapYear (y : Nat) : Bool :=
  y % 4 == 0 && (y % 100 != 0 || y % 400 == 0)

/-- Number of days in a month (1-12) of a given year. -/
def daysInMonth (y m : Nat) : Nat :=
  if m = 2 then (if isLeapYear y then 29 else 28)
  else if m = 4 ∨ m = 6 ∨ m = 9 ∨ m = 11 then 30
  else 31

/-- Days in year `y` strictly before month `m`. -/
def daysBeforeMonth (y : Nat) : Nat → Nat
  | 0 => 0
  | 1 => 0
  | m + 2 => daysBeforeMonth y (m + 1) + daysInMonth y (m + 1)

/-- Day count of a calendar date (rata die).  Differences of `rataDie` values
model `differenceInDays` (and `getTime()` up to the constant day scale). -/
def rataDie (d : CalDate) : Nat :=
  365 * (d.year - 1) + (d.year - 1) / 4 - (d.year - 1) / 100 + (d.year - 1) / 400
    + daysBeforeMonth d.year d.month + d.day

/-- The day after a given calendar date. -/
def nextCalDay (d : CalDate) : CalDate :=
  if d.day < daysInMonth d.year d.month then ⟨d.year, d.month, d.day + 1⟩
  else if d.month < 12 then ⟨d.year, d.month + 1, 1⟩
  else ⟨d.year + 1, 1, 1⟩

/-- Add `n` days to a calendar date: models `date-fns.addDays`/`addWeeks`. -/
def addCalDays (d : CalDate) : Nat → CalDate
  | 0 => d
  | n + 1 => nextCalDay (addCalDays d n)

/-- Add `n` calendar months, clamping the day-of-month to the last valid day
of the target month: models `date-fns.addMonths`. -/
def addCalMonths (d : CalDate) (n : Nat) : CalDate :=
  let t := d.month - 1 + n
  let y := d.year + t / 12
  let m := t % 12 + 1
  ⟨y, m, min d.day (daysInMonth y m)⟩

/-- The four recurrence buckets of `DetectedSubscription['frequency']`. -/
inductive Frequency where
  | weekly
  | monthly
  | quarterly
  | yearly
deriving DecidableEq, Repr

/-- String form of a frequency, as used in the subscription `id`. -/
def freqName : Frequency → String
  | .weekly => "weekly"
  | .monthly => "monthly"
  | .quarterly => "quarterly"
  | .yearly => "yearly"

/-- A well-formed transaction as consumed by `detectSubscriptions`. -/
structure Txn where
  merchant : String
  amount : ℚ
  date : CalDate
  category : String
deriving DecidableEq, Repr

/-- `MerchantGroup` of Subscriptions.tsx (lines 54-58). -/
structure MerchantGroup where
  originalName : String
  transactions : List Txn
  category : String
deriving DecidableEq, Repr

/-- `DetectedSubscription` of Subscriptions.tsx (lines 41-52). -/
structure DetectedSubscription where
  id : String
  merchant : String
  amount : ℚ
  frequency : Frequency
  lastPayment : CalDate
  nextEstimatedPayment : CalDate
  transactions : List Txn
  confidence : Nat
  category : String
  isActive : Bool
deriving DecidableEq, Repr

/-- Characters kept by the normalizer: the regex class `[a-z0-9\s]`. -/
def keptChar (c : Char) : Bool :=
  decide (('a' ≤ c ∧ c ≤ 'z') ∨ ('0' ≤ c ∧ c ≤ '9')) || c.isWhitespace

/-- Merchant-name normalization (Subscriptions.tsx lines 65-68):
lower-case, strip characters outside `[a-z0-9\s]`, trim whitespace. -/
def normalizeMerchant (s : String) : String :=
  let cleaned := (s.data.map Char.toLower).filter keptChar
  List.asString (((cleaned.dropWhile Char.isWhitespace).reverse.dropWhile
    Char.isWhitespace).reverse)

/-- One step of the grouping `reduce` (Subscriptions.tsx lines 64-79): a new
key is appended at the end (JS string-keyed objects preserve insertion order),
an existing group gets the transaction pushed at the end of its list.
`transaction.category || 'Other'` reads empty as falsy. -/
def addToGroups : List (String × MerchantGroup) → Txn → List (String × MerchantGroup)
  | [], t =>
      [(normalizeMerchant t.merchant,
        ⟨t.merchant, [t], if t.category = "" then "Other" else t.category⟩)]
  | (k, g) :: rest, t =>
      if k = normalizeMerchant t.merchant then
        (k, ⟨g.originalName, g.transactions ++ [t], g.category⟩) :: rest
      else
        (k, g) :: addToGroups rest t

/-- The merchant groups built from the outflow transactions
(Subscriptions.tsx lines 62-79, including the `t.amount < 0` filter). -/
def merchantGroups (txs : List Txn) : List (String × MerchantGroup) :=
  (txs.filter (fun t => decide (t.amount < 0))).foldl addToGroups []

/-- Insert into a sorted list: `le x y` means `x` may come (weakly) before
`y`.  Used to model JavaScript's stable `Array.prototype.sort`. -/
def insertBy (le : α → α → Bool) (x : α) : List α → List α
  | [] => [x]
  | y :: ys => if le x y then x :: y :: ys else y :: insertBy le x ys

/-- Stable insertion sort with respect to `le`. -/
def sortBy (le : α → α → Bool) : List α → List α
  | [] => []
  | x :: xs => insertBy le x (sortBy le xs)

/-- Day-scaled `getTime()` of a transaction's date. -/
def txnTime (t : Txn) : Nat := rataDie t.date

/-- The in-group sort `(a, b) => new Date(b.date).getTime() - new Date(a.date).getTime()`:
stable, newest date first. -/
def sortTxnsDesc (l : List Txn) : List Txn :=
  sortBy (fun a b => decide (txnTime b ≤ txnTime a)) l

/-- Absolute amounts of a group (`amounts`, line 93). -/
def absAmounts (l : List Txn) : List ℚ := l.map (fun t => |t.amount|)

/-- Mean of a list of rationals (`reduce(...)/length`). -/
def listMeanQ (l : List ℚ) : ℚ := l.sum / (l.length : ℚ)

/-- `avgAmount` of a group (line 94). -/
def groupAvgAmount (l : List Txn) : ℚ := listMeanQ (absAmounts l)

/-- `dateDiffs` (lines 100-107): day differences of consecutive transactions
of the date-descending-sorted group; only strictly positive differences are
kept (`if (diff > 0) dateDiffs.push(diff)`). -/
def gapsOf : List Txn → List Int
  | t1 :: t2 :: rest =>
      let d : Int := (txnTime t1 : Int) - (txnTime t2 : Int)
      if 0 < d then d :: gapsOf (t2 :: rest) else gapsOf (t2 :: rest)
  | _ => []

/-- `avgDaysBetween` (line 111). -/
def gapMean (l : List Txn) : ℚ := listMeanQ ((gapsOf l).map (fun d => (d : ℚ)))

/-- The frequency classification ladder (lines 120-134), paired with the
confidence bonus added in each branch. -/
def freqOf (avg : ℚ) : Option (Frequency × Nat) :=
  if 6 ≤ avg ∧ avg ≤ 8 then some (.weekly, 20)
  else if 28 ≤ avg ∧ avg ≤ 35 then some (.monthly, 30)
  else if 85 ≤ avg ∧ avg ≤ 95 then some (.quarterly, 25)
  else if 360 ≤ avg ∧ avg ≤ 370 then some (.yearly, 25)
  else none

/-- The per-frequency confidence bonus of the classification ladder. -/
def freqBonus : Frequency → Nat
  | .weekly => 20
  | .monthly => 30
  | .quarterly => 25
  | .yearly => 25

/-- The stacking sample-size bonus (lines 137-139). -/
def sampleBonus (n : Nat) : Nat :=
  (if 3 ≤ n then 10 else 0) + (if 5 ≤ n then 10 else 0) + (if 10 ≤ n then 10 else 0)

/-- `nextEstimatedPayment` (lines 145-158): `addWeeks 1` for weekly,
`addMonths 1/3/12` otherwise. -/
def nextPayment : Frequency → CalDate → CalDate
  | .weekly, d => addCalDays d 7
  | .monthly, d => addCalMonths d 1
  | .quarterly, d => addCalMonths d 3
  | .yearly, d => addCalMonths d 12

/-- The record pushed at lines 165-176.  `merchantTxs` is the sorted group,
`t0` its head (the most recent transaction, `merchantTxs[0]`). -/
def mkSub (today : CalDate) (k : String) (g : MerchantGroup) (merchantTxs : List Txn)
    (t0 : Txn) (freq : Frequency) (fb : Nat) : DetectedSubscription :=
  { id := k ++ "-" ++ freqName freq
    merchant := g.originalName
    amount := groupAvgAmount merchantTxs
    frequency := freq
    lastPayment := t0.date
    nextEstimatedPayment := nextPayment freq t0.date
    transactions := merchantTxs
    confidence := min (60 + fb + sampleBonus merchantTxs.length) 100
    category := g.category
    isActive :=
      decide ((((rataDie today : Int) - (rataDie t0.date : Int) : Int) : ℚ)
        ≤ gapMean merchantTxs * ((3 : ℚ) / 2)) }

/-- The gates at lines 92-134 applied to the sorted group `merchantTxs` with
head `t0`: amount consistency (relative 10 percent), nonempty gap sample,
every gap within 5 days of the mean gap, mean gap in a frequency window. -/
def pgChecked (today : CalDate) (k : String) (g : MerchantGroup)
    (merchantTxs : List Txn) (t0 : Txn) : Option DetectedSubscription :=
  if ∀ a ∈ absAmounts merchantTxs,
      |a - groupAvgAmount merchantTxs| / groupAvgAmount merchantTxs ≤ (1 : ℚ) / 10 then
    if gapsOf merchantTxs = [] then none
    else
      if ∀ d ∈ gapsOf merchantTxs, |(d : ℚ) - gapMean merchantTxs| ≤ 5 then
        match freqOf (gapMean merchantTxs) with
        | some (freq, fb) => some (mkSub today k g merchantTxs t0 freq fb)
        | none => none
      else none
  else none

/-- Dispatch on the sorted group; the empty case is unreachable because the
caller has already checked the group has at least 2 transactions. -/
def pgSorted (today : CalDate) (k : String) (g : MerchantGroup) :
    List Txn → Option DetectedSubscription
  | [] => none
  | t0 :: ts => pgChecked today k g (t0 :: ts) t0

/-- Per-group body of the `forEach` at lines 83-177: size gate, date sort,
amount gate, interval gate, classification, and record construction. -/
def processGroup (today : CalDate) (k : String) (g : MerchantGroup) :
    Option DetectedSubscription :=
  if g.transactions.length < 2 then none
  else pgSorted today k g (sortTxnsDesc g.transactions)

/-- `detectSubscriptions` (lines 60-180).  `today` stands for `new Date()`,
used only by the activity check.  The final sort (line 179) is by confidence
descending. -/
def detectSubscriptions (today : CalDate) (txs : List Txn) : List DetectedSubscription :=
  sortBy (fun a b => decide (b.confidence ≤ a.confidence))
    ((merchantGroups txs).filterMap (fun p => processGroup today p.1 p.2))

/-- A transaction as it actually reaches `detectSubscriptions`: a duck-typed
record whose `merchant` field may be absent (`undefined`). -/
structure RawTxn where
  merchant : Option String
  amount : ℚ
  date : CalDate
  category : String
deriving DecidableEq, Repr

/-- The unguarded field access `transaction.merchant.toLowerCase()`
(Subscriptions.tsx line 65): a missing merchant label raises a `TypeError`. -/
def requireMerchant (t : RawTxn) : Except String Txn :=
  match t.merchant with
  | some m => .ok ⟨m, t.amount, t.date, t.category⟩
  | none => .error "TypeError: Cannot read properties of undefined"

/-- `detectSubscriptions` on raw records: the outflow filter only reads
`amount`, after which the grouping `reduce` dereferences each remaining
transaction's merchant label in order and throws at the first absent one. -/
def detectSubscriptionsRaw (today : CalDate) (txs : List RawTxn) :
    Except String (List DetectedSubscription) :=
  match (txs.filter (fun t => decide (t.amount < 0))).mapM requireMerchant with
  | .error e => .error e
  | .ok outflows =>
      .ok (sortBy (fun a b => decide (b.confidence ≤ a.confidence))
        ((outflows.foldl addToGroups []).filterMap (fun p => processGroup today p.1 p.2)))

/-- The amount-similarity gate of ActiveSubscriptions.tsx (lines 54-59):
every absolute amount within an absolute 5 dollars of the mean. -/
def amountsSimilarAbs (amounts : List ℚ) : Bool :=
  amounts.all (fun amt => decide (|amt - listMeanQ amounts| ≤ 5))

/-- Modelled from the spec (section 4.5), for comparison with `gapsOf`: the
day-gap sample set as the spec words it, namely the absolute day-difference
of EVERY consecutive pair of the date-descending-sorted transactions, with no
gap discarded. -/
def specGaps : List Txn → List Int
  | t1 :: t2 :: rest => |(txnTime t1 : Int) - (txnTime t2 : Int)| :: specGaps (t2 :: rest)
  | _ => []

/-! ### Concrete inputs used by witnesses and counterexamples -/

/-- A fixed "current date" standing for `new Date()`. -/
def cToday : CalDate := ⟨2024, 5, 15⟩

/-- The Netflix example of the spec: four equal charges spaced 30, 31 and 29
days apart (dates descending: 2024-04-30, 2024-03-31, 2024-02-29, 2024-01-31). -/
def netflixTxs : List Txn :=
  [ ⟨"Netflix", -(1299 : ℚ) / 100, ⟨2024, 4, 30⟩, "Streaming"⟩
  , ⟨"Netflix", -(1299 : ℚ) / 100, ⟨2024, 3, 31⟩, "Streaming"⟩
  , ⟨"Netflix", -(1299 : ℚ) / 100, ⟨2024, 2, 29⟩, "Streaming"⟩
  , ⟨"Netflix", -(1299 : ℚ) / 100, ⟨2024, 1, 31⟩, "Streaming"⟩ ]

/-- Same-merchant group with two same-day charges plus two more 30 days
apart: consecutive day differences 0, 30, 30, of which the zero is dropped by
`gapsOf` but kept by `specGaps`. -/
def sameDayTxs : List Txn :=
  [ ⟨"Acme", -10, ⟨2024, 3, 2⟩, "Other"⟩
  , ⟨"Acme", -10, ⟨2024, 3, 2⟩, "Other"⟩
  , ⟨"Acme", -10, ⟨2024, 2, 1⟩, "Other"⟩
  , ⟨"Acme", -10, ⟨2024, 1, 2⟩, "Other"⟩ ]

/-- Absolute amounts 10, 10, 10, 25 on a clean monthly spacing: the amount
gate (relative or absolute) rejects the group. -/
def gymTxs : List Txn :=
  [ ⟨"Gym", -10, ⟨2024, 4, 30⟩, "Fitness"⟩
  , ⟨"Gym", -10, ⟨2024, 3, 31⟩, "Fitness"⟩
  , ⟨"Gym", -10, ⟨2024, 2, 29⟩, "Fitness"⟩
  , ⟨"Gym", -25, ⟨2024, 1, 31⟩, "Fitness"⟩ ]

/-- Two merchants with equal detection confidence but different average
amounts; the lower-amount merchant appears first in the input. -/
def tieTxs : List Txn :=
  [ ⟨"Aaa", -5, ⟨2024, 3, 1⟩, "Other"⟩
  , ⟨"Aaa", -5, ⟨2024, 1, 31⟩, "Other"⟩
  , ⟨"Bbb", -10, ⟨2024, 3, 1⟩, "Other"⟩
  , ⟨"Bbb", -10, ⟨2024, 1, 31⟩, "Other"⟩ ]

/-- The same merchant under two casings, the older spelling first in the
input list: the group label is taken from the first-encountered member. -/
def casingTxs : List Txn :=
  [ ⟨"NETFLIX", -10, ⟨2024, 1, 31⟩, "Streaming"⟩
  , ⟨"Netflix", -10, ⟨2024, 3, 1⟩, "Streaming"⟩ ]

/-- Two purely-symbolic merchant labels, both normalizing to the empty key,
with consistent amounts and monthly spacing. -/
def symbolTxs : List Txn :=
  [ ⟨"***", -10, ⟨2024, 3, 1⟩, "Other"⟩
  , ⟨"!!!", -10, ⟨2024, 1, 31⟩, "Other"⟩ ]

/-- A raw input containing one outflow transaction with a missing merchant
label among two well-formed monthly transactions. -/
def rawBadTxs : List RawTxn :=
  [ ⟨some "Spotify", -10, ⟨2024, 3, 1⟩, "Music"⟩
  , ⟨none, -10, ⟨2024, 2, 10⟩, ""⟩
  , ⟨some "Spotify", -10, ⟨2024, 1, 31⟩, "Music"⟩ ]

/-- `rawBadTxs` with the malformed record removed. -/
def rawGoodTxs : List RawTxn :=
  [ ⟨some "Spotify", -10, ⟨2024, 3, 1⟩, "Music"⟩
  , ⟨some "Spotify", -10, ⟨2024, 1, 31⟩, "Music"⟩ ]

/-- The subscription the detector emits for `netflixTxs`. -/
def netflixSub : DetectedSubscription :=
  { id := "netflix-monthly"
    merchant := "Netflix"
    amount := (1299 : ℚ) / 100
    frequency := .monthly
    lastPayment := ⟨2024, 4, 30⟩
    nextEstimatedPayment := ⟨2024, 5, 30⟩
    transactions := netflixTxs
    confidence := 100
    category := "Streaming"
    isActive := true }

/-- The subscription the detector emits for `casingTxs`: its label is the
first-encountered "NETFLIX", while its most recent member reads "Netflix". -/
def casingSub : DetectedSubscription :=
  { id := "netflix-monthly"
    merchant := "NETFLIX"
    amount := 10
    frequency := .monthly
    lastPayment := ⟨2024, 3, 1⟩
    nextEstimatedPayment := ⟨2024, 4, 1⟩
    transactions :=
      [ ⟨"Netflix", -10, ⟨2024, 3, 1⟩, "Streaming"⟩
      , ⟨"NETFLIX", -10, ⟨2024, 1, 31⟩, "Streaming"⟩ ]
    confidence := 90
    category := "Streaming"
    isActive := false }

/- `Rat.add`, `Rat.mul`, `Rat.inv` and `Rat.sub` are `@[irreducible]` in the
library; make them unfoldable so that `decide` can evaluate the detector on
concrete inputs (the kernel ignores reducibility either way). -/
attribute [local semireducible] Rat.add Rat.mul Rat.inv Rat.sub

example : rataDie ⟨2024, 3, 1⟩ - rataDie ⟨2024, 2, 1⟩ = 29 := by decide
example : addCalMonths ⟨2024, 1, 31⟩ 1 = ⟨2024, 2, 29⟩ := by decide
example : normalizeMerchant " Netflix*COM " = "netflixcom" := by decide
example : detectSubscriptions cToday netflixTxs = [netflixSub] := by decide
example : detectSubscriptions cToday casingTxs = [casingSub] := by decide

/-! ### Helper lemmas -/

theorem mem_insertBy {le : α → α → Bool} {a x : α} {l : List α} :
    x ∈ insertBy le a l ↔ x = a ∨ x ∈ l := by
  induction l with
  | nil => simp [insertBy]
  | cons y ys ih =>
    simp only [insertBy]
    split
    · simp [List.mem_cons]
    · simp only [List.mem_cons, ih]
      tauto

theorem mem_sortBy {le : α → α → Bool} {x : α} {l : List α} :
    x ∈ sortBy le l ↔ x ∈ l := by
  induction l with
  | nil => simp [sortBy]
  | cons y ys ih => simp [sortBy, mem_insertBy, ih]

theorem length_insertBy {le : α → α → Bool} {a : α} {l : List α} :
    (insertBy le a l).length = l.length + 1 := by
  induction l with
  | nil => simp [insertBy]
  | cons y ys ih =>
    simp only [insertBy]
    split
    · simp
    · simp [ih]

theorem length_sortBy {le : α → α → Bool} {l : List α} :
    (sortBy le l).length = l.length := by
  induction l with
  | nil => simp [sortBy]
  | cons y ys ih => simp [sortBy, length_insertBy, ih]

theorem pairwise_insertBy {le : α → α → Bool}
    (tot : ∀ a b, le a b = true ∨ le b a = true)
    (tr : ∀ a b c, le a b = true → le b c = true → le a c = true)
    {a : α} {l : List α} (h : l.Pairwise (fun x y => le x y = true)) :
    (insertBy le a l).Pairwise (fun x y => le x y = true) := by
  induction l with
  | nil => simp [insertBy]
  | cons y ys ih =>
    rcases List.pairwise_cons.mp h with ⟨hy, hys⟩
    simp only [insertBy]
    split
    next hle =>
      refine List.pairwise_cons.mpr ⟨?_, h⟩
      intro z hz
      rcases List.mem_cons.mp hz with rfl | hz2
      · exact hle
      · exact tr a y z hle (hy z hz2)
    next hle =>
      refine List.pairwise_cons.mpr ⟨?_, ih hys⟩
      intro z hz
      rcases mem_insertBy.mp hz with rfl | hz2
      · rcases tot z y with h1 | h1
        · exact absurd h1 hle
        · exact h1
      · exact hy z hz2

theorem pairwise_sortBy (le : α → α → Bool)
    (tot : ∀ a b, le a b = true ∨ le b a = true)
    (tr : ∀ a b c, le a b = true → le b c = true → le a c = true)
    (l : List α) : (sortBy le l).Pairwise (fun x y => le x y = true) := by
  induction l with
  | nil => simp [sortBy]
  | cons x xs ih =>
    simp only [sortBy]
    exact pairwise_insertBy tot tr ih

theorem sortTxnsDesc_pairwise (l : List Txn) :
    (sortTxnsDesc l).Pairwise (fun a b => txnTime b ≤ txnTime a) := by
  have h := pairwise_sortBy (fun a b : Txn => decide (txnTime b ≤ txnTime a))
    (fun a b => by
      rcases Nat.le_total (txnTime b) (txnTime a) with h1 | h1
      · exact Or.inl (decide_eq_true h1)
      · exact Or.inr (decide_eq_true h1))
    (fun a b c hab hbc =>
      decide_eq_true (Nat.le_trans (of_decide_eq_true hbc) (of_decide_eq_true hab))) l
  exact h.imp (fun hab => of_decide_eq_true hab)

theorem mem_detect {today : CalDate} {txs : List Txn} {s : DetectedSubscription}
    (h : s ∈ detectSubscriptions today txs) :
    ∃ p ∈ merchantGroups txs, processGroup today p.1 p.2 = some s := by
  unfold detectSubscriptions at h
  rw [mem_sortBy] at h
  rcases List.mem_filterMap.mp h with ⟨p, hp, hps⟩
  exact ⟨p, hp, hps⟩

theorem processGroup_some {today : CalDate} {k : String} {g : MerchantGroup}
    {s : DetectedSubscription} (h : processGroup today k g = some s) :
    ∃ t0 ts freq fb,
      sortTxnsDesc g.transactions = t0 :: ts ∧
      2 ≤ g.transactions.length ∧
      (∀ a ∈ absAmounts (t0 :: ts),
        |a - groupAvgAmount (t0 :: ts)| / groupAvgAmount (t0 :: ts) ≤ (1 : ℚ) / 10) ∧
      gapsOf (t0 :: ts) ≠ [] ∧
      (∀ d ∈ gapsOf (t0 :: ts), |(d : ℚ) - gapMean (t0 :: ts)| ≤ 5) ∧
      freqOf (gapMean (t0 :: ts)) = some (freq, fb) ∧
      s = mkSub today k g (t0 :: ts) t0 freq fb := by
  unfold processGroup at h
  split at h
  · exact absurd h (by simp)
  next hlen =>
    rcases hsort : sortTxnsDesc g.transactions with _ | ⟨t0, ts⟩
    · rw [hsort] at h
      simp [pgSorted] at h
    · rw [hsort] at h
      simp only [pgSorted] at h
      unfold pgChecked at h
      split at h
      next hA =>
        split at h
        next hE => simp at h
        next hE =>
          split at h
          next hD =>
            rcases hfreq : freqOf (gapMean (t0 :: ts)) with _ | ⟨freq, fb⟩
            · rw [hfreq] at h
              simp at h
            · rw [hfreq] at h
              simp only at h
              refine ⟨t0, ts, freq, fb, rfl, by omega, hA, hE, hD, hfreq, ?_⟩
              exact (Option.some.inj h).symm
          next hD => simp at h
      next hA => simp at h

theorem freqOf_some {a : ℚ} {f : Frequency} {b : Nat} (h : freqOf a = some (f, b)) :
    b = freqBonus f ∧
    ((f = .weekly ∧ 6 ≤ a ∧ a ≤ 8) ∨
     (f = .monthly ∧ 28 ≤ a ∧ a ≤ 35) ∨
     (f = .quarterly ∧ 85 ≤ a ∧ a ≤ 95) ∨
     (f = .yearly ∧ 360 ≤ a ∧ a ≤ 370)) := by
  unfold freqOf at h
  split at h
  next h1 =>
    simp only [Option.some.injEq, Prod.mk.injEq] at h
    obtain ⟨rfl, rfl⟩ := h
    exact ⟨rfl, Or.inl ⟨rfl, h1⟩⟩
  next =>
    split at h
    next h2 =>
      simp only [Option.some.injEq, Prod.mk.injEq] at h
      obtain ⟨rfl, rfl⟩ := h
      exact ⟨rfl, Or.inr (Or.inl ⟨rfl, h2⟩)⟩
    next =>
      split at h
      next h3 =>
        simp only [Option.some.injEq, Prod.mk.injEq] at h
        obtain ⟨rfl, rfl⟩ := h
        exact ⟨rfl, Or.inr (Or.inr (Or.inl ⟨rfl, h3⟩))⟩
      next =>
        split at h
        next h4 =>
          simp only [Option.some.injEq, Prod.mk.injEq] at h
          obtain ⟨rfl, rfl⟩ := h
          exact ⟨rfl, Or.inr (Or.inr (Or.inr ⟨rfl, h4⟩))⟩
        next => simp at h

/-- Invariant of the grouping fold: every group is nonempty, carries the
label and the category of its first-encountered transaction, and its key is
that transaction's normalized label. -/
def GroupInv (p : String × MerchantGroup) : Prop :=
  ∃ t rest, p.2.transactions = t :: rest ∧ p.2.originalName = t.merchant ∧
    normalizeMerchant t.merchant = p.1

theorem addToGroups_inv {acc : List (String × MerchantGroup)} {t : Txn}
    (h : ∀ p ∈ acc, GroupInv p) : ∀ p ∈ addToGroups acc t, GroupInv p := by
  induction acc with
  | nil =>
    intro p hp
    simp only [addToGroups, List.mem_singleton] at hp
    subst hp
    exact ⟨t, [], rfl, rfl, rfl⟩
  | cons q rest ih =>
    intro p hp
    obtain ⟨k, g⟩ := q
    simp only [addToGroups] at hp
    split at hp
    · rcases List.mem_cons.mp hp with rfl | hp2
      · obtain ⟨t0, r0, htr, hon, hkey⟩ := h (k, g) (List.mem_cons_self _ _)
        have htr2 : g.transactions = t0 :: r0 := htr
        exact ⟨t0, r0 ++ [t], by simp [htr2], hon, hkey⟩
      · exact h p (List.mem_cons_of_mem _ hp2)
    · rcases List.mem_cons.mp hp with rfl | hp2
      · exact h (k, g) (List.mem_cons_self _ _)
      · exact ih (fun q hq => h q (List.mem_cons_of_mem _ hq)) p hp2

theorem foldl_addToGroups_inv :
    ∀ (l : List Txn) (acc : List (String × MerchantGroup)),
      (∀ p ∈ acc, GroupInv p) → ∀ p ∈ l.foldl addToGroups acc, GroupInv p := by
  intro l
  induction l with
  | nil => intro acc h; simpa using h
  | cons t ts ih =>
    intro acc h
    simp only [List.foldl_cons]
    exact ih _ (addToGroups_inv h)

theorem merchantGroups_inv {txs : List Txn} : ∀ p ∈ merchantGroups txs, GroupInv p := by
  unfold merchantGroups
  exact foldl_addToGroups_inv _ [] (by simp)

/-! ### Claims -/

/-- C9: every `DetectedSubscription` emitted by `detectSubscriptions` is
backed by at least 2 supporting transactions; equivalently, a merchant key
with fewer than 2 qualifying outflow transactions produces no subscription. -/
theorem C9_min_two_transactions (today : CalDate) (txs : List Txn)
    (s : DetectedSubscription) (hs : s ∈ detectSubscriptions today txs) :
    2 ≤ s.transactions.length := by
  obtain ⟨p, hp, hps⟩ := mem_detect hs
  obtain ⟨t0, ts, freq, fb, hsort, hlen, hA, hE, hD, hfreq, rfl⟩ := processGroup_some hps
  have hlength : (sortTxnsDesc p.2.transactions).length = p.2.transactions.length :=
    length_sortBy
  rw [hsort] at hlength
  simp only [mkSub]
  rw [hlength]
  exact hlen

/-- C9 witness: the Netflix example is backed by at least 2 transactions. -/
theorem C9_witness : 2 ≤ netflixSub.transactions.length :=
  C9_min_two_transactions cToday netflixTxs netflixSub (by decide)

/-- C10: every emitted subscription has confidence in the closed interval
[80, 100]: base 60 plus the smallest frequency bonus 20 bounds it below, the
final min with 100 bounds it above. -/
theorem C10_confidence_band (today : CalDate) (txs : List Txn)
    (s : DetectedSubscription) (hs : s ∈ detectSubscriptions today txs) :
    80 ≤ s.confidence ∧ s.confidence ≤ 100 := by
  obtain ⟨p, hp, hps⟩ := mem_detect hs
  obtain ⟨t0, ts, freq, fb, hsort, hlen, hA, hE, hD, hfreq, rfl⟩ := processGroup_some hps
  obtain ⟨rfl, _⟩ := freqOf_some hfreq
  simp only [mkSub]
  constructor
  · refine le_min ?_ (by norm_num)
    have h20 : 20 ≤ freqBonus freq := by cases freq <;> simp [freqBonus]
    omega
  · exact Nat.min_le_right _ _

/-- C10 witness: the Netflix example's confidence lies in [80, 100]. -/
theorem C10_witness : 80 ≤ netflixSub.confidence ∧ netflixSub.confidence ≤ 100 :=
  C10_confidence_band cToday netflixTxs netflixSub (by decide)

/-- C2: every emitted subscription's confidence is
min(100, 60 + frequency bonus + stacking sample-size bonus), with the bonus
tables of `freqBonus` and `sampleBonus`; and the 4-transaction Netflix group
spaced 30, 31, 29 days apart is monthly with confidence exactly 100. -/
theorem C2_confidence_formula :
    (∀ (today : CalDate) (txs : List Txn) (s : DetectedSubscription),
      s ∈ detectSubscriptions today txs →
        s.confidence =
          min (60 + freqBonus s.frequency + sampleBonus s.transactions.length) 100) ∧
    netflixSub ∈ detectSubscriptions cToday netflixTxs ∧
    netflixSub.frequency = .monthly ∧ netflixSub.confidence = 100 := by
  refine ⟨?_, by decide, by decide, by decide⟩
  intro today txs s hs
  obtain ⟨p, hp, hps⟩ := mem_detect hs
  obtain ⟨t0, ts, freq, fb, hsort, hlen, hA, hE, hD, hfreq, rfl⟩ := processGroup_some hps
  obtain ⟨rfl, _⟩ := freqOf_some hfreq
  simp [mkSub]

/-- C2 witness: the confidence formula instantiated on the Netflix example. -/
theorem C2_witness :
    netflixSub ∈ detectSubscriptions cToday netflixTxs ∧
    netflixSub.confidence =
      min (60 + freqBonus netflixSub.frequency + sampleBonus netflixSub.transactions.length) 100 :=
  ⟨by decide, C2_confidence_formula.1 cToday netflixTxs netflixSub (by decide)⟩

/-- C3: every emitted subscription's amount is the mean of the group's
absolute amounts, and every member passed the configured amount-consistency
gate (relative 10 percent in `detectSubscriptions`); under the absolute
5-dollar gate of ActiveSubscriptions.tsx the amounts [10, 10, 10, 25]
(mean 13.75) fail, and the detector emits nothing for such a group. -/
theorem C3_amount_gate :
    (∀ (today : CalDate) (txs : List Txn) (s : DetectedSubscription),
      s ∈ detectSubscriptions today txs →
        s.amount = groupAvgAmount s.transactions ∧
        ∀ a ∈ absAmounts s.transactions, |a - s.amount| / s.amount ≤ (1 : ℚ) / 10) ∧
    listMeanQ [10, 10, 10, 25] = (55 : ℚ) / 4 ∧
    amountsSimilarAbs [10, 10, 10, 25] = false ∧
    detectSubscriptions cToday gymTxs = [] := by
  refine ⟨?_, by decide, by decide, by decide⟩
  intro today txs s hs
  obtain ⟨p, hp, hps⟩ := mem_detect hs
  obtain ⟨t0, ts, freq, fb, hsort, hlen, hA, hE, hD, hfreq, rfl⟩ := processGroup_some hps
  constructor
  · simp [mkSub]
  · simpa [mkSub] using hA

/-- C3 witness: the amount gate instantiated on the Netflix example. -/
theorem C3_witness :
    netflixSub.amount = groupAvgAmount netflixSub.transactions ∧
    ∀ a ∈ absAmounts netflixSub.transactions,
      |a - netflixSub.amount| / netflixSub.amount ≤ (1 : ℚ) / 10 :=
  (C3_amount_gate.1 cToday netflixTxs netflixSub (by decide))

/-- C1 counterexample: the claim computes the gap set as the absolute
day-difference of EVERY consecutive pair (`specGaps`) and requires each gap
within 5 days of the mean; on `sameDayTxs` (consecutive differences 0, 30,
30, spec mean 20) that gate fails, yet the detector emits a subscription,
because the code discards the zero gap (`if (diff > 0)`). -/
theorem C1_counterexample :
    ∃ s ∈ detectSubscriptions cToday sameDayTxs,
      ¬ (∀ d ∈ specGaps s.transactions,
          |(d : ℚ) - listMeanQ ((specGaps s.transactions).map (fun x => (x : ℚ)))| ≤ 5) := by
  decide

/-- C1 (amended): the gap sample of an emitted subscription is the list of
STRICTLY POSITIVE day-differences of consecutive sorted transactions (zero
gaps from same-day pairs are discarded); it is nonempty, every gap is within
5 days of its mean, and the mean lies in one of the four inclusive windows,
which determines the frequency. -/
theorem C1_interval_gate (today : CalDate) (txs : List Txn)
    (s : DetectedSubscription) (hs : s ∈ detectSubscriptions today txs) :
    gapsOf s.transactions ≠ [] ∧
    (∀ d ∈ gapsOf s.transactions, |(d : ℚ) - gapMean s.transactions| ≤ 5) ∧
    ((s.frequency = .weekly ∧ 6 ≤ gapMean s.transactions ∧ gapMean s.transactions ≤ 8) ∨
     (s.frequency = .monthly ∧ 28 ≤ gapMean s.transactions ∧ gapMean s.transactions ≤ 35) ∨
     (s.frequency = .quarterly ∧ 85 ≤ gapMean s.transactions ∧ gapMean s.transactions ≤ 95) ∨
     (s.frequency = .yearly ∧ 360 ≤ gapMean s.transactions ∧ gapMean s.transactions ≤ 370)) := by
  obtain ⟨p, hp, hps⟩ := mem_detect hs
  obtain ⟨t0, ts, freq, fb, hsort, hlen, hA, hE, hD, hfreq, rfl⟩ := processGroup_some hps
  obtain ⟨_, hw⟩ := freqOf_some hfreq
  refine ⟨by simpa [mkSub] using hE, by simpa [mkSub] using hD, ?_⟩
  simpa [mkSub] using hw

/-- C1 witness: the interval gate instantiated on the Netflix example. -/
theorem C1_witness :
    gapsOf netflixSub.transactions ≠ [] ∧
    (∀ d ∈ gapsOf netflixSub.transactions,
      |(d : ℚ) - gapMean netflixSub.transactions| ≤ 5) ∧
    ((netflixSub.frequency = .weekly ∧ 6 ≤ gapMean netflixSub.transactions ∧
        gapMean netflixSub.transactions ≤ 8) ∨
     (netflixSub.frequency = .monthly ∧ 28 ≤ gapMean netflixSub.transactions ∧
        gapMean netflixSub.transactions ≤ 35) ∨
     (netflixSub.frequency = .quarterly ∧ 85 ≤ gapMean netflixSub.transactions ∧
        gapMean netflixSub.transactions ≤ 95) ∨
     (netflixSub.frequency = .yearly ∧ 360 ≤ gapMean netflixSub.transactions ∧
        gapMean netflixSub.transactions ≤ 370)) :=
  C1_interval_gate cToday netflixTxs netflixSub (by decide)

/-- C4: every emitted subscription projects its next payment by applying the
canonical period (`nextPayment`: weekly +7 days, monthly +1, quarterly +3,
yearly +12 clamped calendar months) to the date of its most recent
transaction; and the clamped month arithmetic resolves 2024-01-15 to
2024-02-15 and 2024-01-31 to 2024-02-29. -/
theorem C4_next_payment :
    (∀ (today : CalDate) (txs : List Txn) (s : DetectedSubscription),
      s ∈ detectSubscriptions today txs →
        s.nextEstimatedPayment = nextPayment s.frequency s.lastPayment ∧
        (∃ t ∈ s.transactions, t.date = s.lastPayment) ∧
        ∀ t ∈ s.transactions, rataDie t.date ≤ rataDie s.lastPayment) ∧
    nextPayment .monthly ⟨2024, 1, 15⟩ = ⟨2024, 2, 15⟩ ∧
    nextPayment .monthly ⟨2024, 1, 31⟩ = ⟨2024, 2, 29⟩ ∧
    nextPayment .weekly ⟨2024, 1, 15⟩ = ⟨2024, 1, 22⟩ ∧
    nextPayment .quarterly ⟨2024, 1, 31⟩ = ⟨2024, 4, 30⟩ ∧
    nextPayment .yearly ⟨2024, 2, 29⟩ = ⟨2025, 2, 28⟩ := by
  refine ⟨?_, by decide, by decide, by decide, by decide, by decide⟩
  intro today txs s hs
  obtain ⟨p, hp, hps⟩ := mem_detect hs
  obtain ⟨t0, ts, freq, fb, hsort, hlen, hA, hE, hD, hfreq, rfl⟩ := processGroup_some hps
  have hpw := sortTxnsDesc_pairwise p.2.transactions
  rw [hsort] at hpw
  obtain ⟨h0, _⟩ := List.pairwise_cons.mp hpw
  refine ⟨by simp [mkSub], ⟨t0, by simp [mkSub], by simp [mkSub]⟩, ?_⟩
  intro t ht
  simp only [mkSub] at ht ⊢
  rcases List.mem_cons.mp ht with rfl | ht2
  · exact le_refl _
  · exact h0 t ht2

/-- C4 witness: the projection contract instantiated on the Netflix example. -/
theorem C4_witness :
    netflixSub.nextEstimatedPayment = nextPayment netflixSub.frequency netflixSub.lastPayment ∧
    (∃ t ∈ netflixSub.transactions, t.date = netflixSub.lastPayment) ∧
    ∀ t ∈ netflixSub.transactions, rataDie t.date ≤ rataDie netflixSub.lastPayment :=
  C4_next_payment.1 cToday netflixTxs netflixSub (by decide)

/-- C5 counterexample: on `tieTxs` the output holds two subscriptions of
equal confidence whose average amounts are ASCENDING, so the output is not
ordered by the claimed averageAmount-descending tie-break (line 179 sorts by
confidence only, and the stable sort keeps group-encounter order on ties). -/
theorem C5_counterexample :
    ¬ ((detectSubscriptions cToday tieTxs).Pairwise
        (fun a b => b.confidence ≤ a.confidence ∧
          (a.confidence = b.confidence → b.amount ≤ a.amount))) := by
  decide

/-- C5 (amended): the returned list is sorted descending by confidence;
equal-confidence entries are not reordered by average amount. -/
theorem C5_sorted_by_confidence (today : CalDate) (txs : List Txn) :
    (detectSubscriptions today txs).Pairwise (fun a b => b.confidence ≤ a.confidence) := by
  unfold detectSubscriptions
  have h := pairwise_sortBy
    (fun a b : DetectedSubscription => decide (b.confidence ≤ a.confidence))
    (fun a b => by
      rcases Nat.le_total a.confidence b.confidence with h1 | h1
      · exact Or.inr (decide_eq_true h1)
      · exact Or.inl (decide_eq_true h1))
    (fun a b c hab hbc =>
      decide_eq_true (Nat.le_trans (of_decide_eq_true hbc) (of_decide_eq_true hab)))
    ((merchantGroups txs).filterMap (fun p => processGroup today p.1 p.2))
  exact h.imp (fun hab => of_decide_eq_true hab)

/-- C6 counterexample: on `casingTxs` the emitted subscription's merchant
label ("NETFLIX", the first-encountered member) differs from the label of its
most recent transaction ("Netflix"). -/
theorem C6_counterexample :
    ∃ s ∈ detectSubscriptions cToday casingTxs, ∃ t ∈ s.transactions,
      (∀ u ∈ s.transactions, rataDie u.date ≤ rataDie t.date) ∧
      s.merchant ≠ t.merchant := by
  decide

/-- C6 (amended): the merchant field of an emitted subscription is the
original label of the FIRST-ENCOUNTERED transaction of its group in input
order (the transaction that created the group), whose normalized label is
the group key; the supporting transactions are the group sorted by date. -/
theorem C6_merchant_from_first (today : CalDate) (txs : List Txn)
    (s : DetectedSubscription) (hs : s ∈ detectSubscriptions today txs) :
    ∃ p ∈ merchantGroups txs, ∃ t rest,
      p.2.transactions = t :: rest ∧ s.merchant = t.merchant ∧
      normalizeMerchant t.merchant = p.1 ∧
      s.transactions = sortTxnsDesc p.2.transactions := by
  obtain ⟨p, hp, hps⟩ := mem_detect hs
  obtain ⟨t0, ts, freq, fb, hsort, hlen, hA, hE, hD, hfreq, rfl⟩ := processGroup_some hps
  obtain ⟨t, rest, htr, hon, hkey⟩ := merchantGroups_inv p hp
  refine ⟨p, hp, t, rest, htr, ?_, hkey, ?_⟩
  · simp [mkSub, hon]
  · simp [mkSub, hsort]

/-- C6 witness: the amended merchant contract on the `casingTxs` output. -/
theorem C6_witness :
    ∃ p ∈ merchantGroups casingTxs, ∃ t rest,
      p.2.transactions = t :: rest ∧ casingSub.merchant = t.merchant ∧
      normalizeMerchant t.merchant = p.1 ∧
      casingSub.transactions = sortTxnsDesc p.2.transactions :=
  C6_merchant_from_first cToday casingTxs casingSub (by decide)

/-- C7: a raw input holding one outflow transaction without a merchant label
makes the detector throw (the unvalidated `merchant.toLowerCase()` access),
instead of silently excluding it; the same input without the malformed
record is processed normally. -/
theorem C7_missing_merchant_throws :
    detectSubscriptionsRaw cToday rawBadTxs =
      .error "TypeError: Cannot read properties of undefined" ∧
    ∃ l, detectSubscriptionsRaw cToday rawGoodTxs = .ok l ∧ l.length = 1 :=
  ⟨rfl, ⟨_, rfl, rfl⟩⟩

/-- C8: two transactions whose labels normalize to the empty key are grouped
under the empty key and DO produce a subscription (with id "-monthly"),
contrary to the claim that empty keys never produce one. -/
theorem C8_empty_key_emits :
    normalizeMerchant "***" = "" ∧ normalizeMerchant "!!!" = "" ∧
    (detectSubscriptions cToday symbolTxs).length = 1 ∧
    ∀ s ∈ detectSubscriptions cToday symbolTxs, s.id = "-monthly" := by
  decide
